import Mathlib

/-!
Verification of the cine-compass showtime aggregation/filtering engine and the
timeline availability logic. The definitions below are a shallow embedding of
the TypeScript source: the `movieService` data module (grouping raw Cineville
showtimes into film-centric `Movie` values, venue-scope resolution, API filter
construction) and the `MovieTimeline` component (availability classification
against an anchor showing, buffer clamping, theater-column ordering).

Conventions of the embedding:
- TypeScript `T | null` / optional fields become `Option T`; plain strings
  become `String`; numbers used as integral quantities (millisecond instants,
  minutes, years) become `Int`.
- JavaScript string truthiness (`""` is falsy) is modelled explicitly with
  `jsOrS` / `jsOrOS`, mirroring the `a || b` idiom on strings.
- `String.prototype.includes`, `toLowerCase` and `trim` are modelled over the
  character list of a `String` (`containsCL`, `lowerStr`, `trimStr`); this
  matches the source on the ASCII data the application handles.
- Asynchronous fetches are modelled by passing the fetch result (an
  `Except`-value) or the fetched directory as an explicit argument; the
  process-wide caches are threaded as explicit state where a claim needs them.
-/

namespace CineCompass

/-- `headMatches hay pat` holds when `hay` starts with `pat` (character lists). -/
def headMatches : List Char → List Char → Bool
  | _, [] => true
  | [], _ :: _ => false
  | c :: cs, p :: ps => c = p && headMatches cs ps

/-- Substring containment on character lists; model of `String.prototype.includes`. -/
def containsCL (hay pat : List Char) : Bool :=
  match hay with
  | [] => pat.isEmpty
  | _ :: t => headMatches hay pat || containsCL t pat

/-- Model of `hay.includes(pat)` for JavaScript strings. -/
def strIncludes (hay pat : String) : Bool := containsCL hay.data pat.data

/-- Model of `s.toLowerCase()` (ASCII case folding). -/
def lowerStr (s : String) : String := ⟨s.data.map Char.toLower⟩

/-- Trim of a character list: drop leading and trailing whitespace. -/
def trimChars (l : List Char) : List Char :=
  ((l.dropWhile Char.isWhitespace).reverse.dropWhile Char.isWhitespace).reverse

/-- Model of `s.trim()`. -/
def trimStr (s : String) : String := ⟨trimChars s.data⟩

/-- JavaScript `a || b` on strings: `""` is falsy. -/
def jsOrS (a b : String) : String := if a = "" then b else a

/-- JavaScript `a || b` where `a` may be `null`/`undefined` (and `""` is falsy). -/
def jsOrOS (a : Option String) (b : String) : String :=
  match a with
  | some s => jsOrS s b
  | none => b

/-- One step of first-occurrence deduplication (the insertion behaviour of a JS `Set`). -/
def dedupStep {α : Type} [DecidableEq α] (acc : List α) (x : α) : List α :=
  if x ∈ acc then acc else acc ++ [x]

/-- Model of `Array.from(new Set(l))`: deduplicate keeping first occurrences in order. -/
def firstDedup {α : Type} [DecidableEq α] (l : List α) : List α :=
  l.foldl dedupStep []

/-! ### Data model (from `src/types/Movie.ts`) -/

/-- Cineville media asset. -/
structure CinevilleAsset where
  url : String
  mime : Option String
  alternativeText : Option String
deriving DecidableEq

/-- Cineville postal address. -/
structure CinevilleAddress where
  street : String
  houseNumber : String
  postalCode : String
  city : String
  country : String
deriving DecidableEq

/-- Cineville theater (venue) record. -/
structure CinevilleTheater where
  id : String
  slug : String
  name : String
  address : CinevilleAddress
  cover : Option CinevilleAsset
  website : Option String
  shortDescription : Option String
  intro : Option String
  description : Option String
  ticketInfo : Option String
deriving DecidableEq

/-- Cineville film record as delivered inside a showtime. -/
structure CinevilleFilm where
  id : String
  slug : String
  title : String
  cover : Option CinevilleAsset
  poster : Option CinevilleAsset
  trailer : Option CinevilleAsset
  cast : Option (List String)
  duration : Int
  directors : Option (List String)
  releaseYear : Int
  spokenLanguages : Option (List String)
  contentRatingMinimumAge : Option Int
  premiereDate : Option String
  shortDescription : String
  description : String
  editorsNote : Option String
deriving DecidableEq

/-- Raw showtime record from the Cineville catalog. -/
structure CinevilleShowtime where
  id : String
  film : CinevilleFilm
  theater : CinevilleTheater
  startDate : String
  endDate : String
  subtitles : String
  languageVersion : Option String
  ticketingUrl : Option String
  specials : Option String
deriving DecidableEq

/-- App-level showtime attached to a `Movie`. -/
structure MovieShowtime where
  id : String
  startDate : String
  endDate : String
  theaterId : String
  theaterName : String
  theaterCity : String
  ticketingUrl : Option String
  specials : Option String
  subtitles : String
  languageVersion : Option String
deriving DecidableEq

/-- App-level aggregated movie (one `Movie` per film, carrying derived facets). -/
structure Movie where
  id : String
  title : String
  poster_path : String
  release_date : String
  overview : String
  vote_average : Int
  genre_ids : List Int
  duration : Int
  directors : List String
  cast : List String
  releaseYear : Int
  spokenLanguages : List String
  availableSubtitles : List String
  availableLanguageVersions : List String
  availableSpecials : List String
  showtimes : List MovieShowtime
deriving DecidableEq

/-- User-facing filter state. -/
structure MovieFilters where
  selectedCity : Option String
  selectedTheaters : List String
  selectedSubtitleLanguages : List String
  selectedSpokenLanguages : List String
  selectedSpecials : List String
  startTime : Option String
  endTime : Option String
  startDate : Option String
  endDate : Option String
deriving DecidableEq

/-! ### Data service (`movieService` module) -/

/-- Embeds `convertCinevilleFilmToMovie` from the data-service module: derives the
three facet label sets (trim, drop empties, dedupe keeping first occurrence),
reshapes the showtimes, and builds the `Movie` with the poster/cover fallback. -/
def convertCinevilleFilmToMovie (film : CinevilleFilm)
    (showtimes : List CinevilleShowtime) : Movie :=
  -- rating is hard-coded to 0 in the source; Math.round(0 * 10) / 10 = 0
  let availableSubtitles := firstDedup
    (((showtimes.map (fun st => jsOrS st.subtitles "")).filter
        (fun s => trimStr s ≠ "")).map (fun s => trimStr s))
  let availableLanguageVersions := firstDedup
    ((showtimes.filter (fun st =>
        match st.languageVersion with
        | some s => trimStr s ≠ ""
        | none => false)).map (fun st => trimStr (st.languageVersion.getD "")))
  let availableSpecials := firstDedup
    (((showtimes.map (fun st => jsOrOS st.specials "")).filter
        (fun s => trimStr s ≠ "")).map (fun s => trimStr s))
  let movieShowtimes := showtimes.map (fun st =>
    ({ id := st.id
       startDate := st.startDate
       endDate := st.endDate
       theaterId := st.theater.id
       theaterName := st.theater.name
       theaterCity := st.theater.address.city
       ticketingUrl := st.ticketingUrl
       specials := st.specials
       subtitles := st.subtitles
       languageVersion := st.languageVersion } : MovieShowtime))
  { id := film.id
    title := film.title
    poster_path := jsOrOS (film.poster.map (fun a => a.url))
      (jsOrOS (film.cover.map (fun a => a.url)) "")
    release_date := jsOrOS film.premiereDate (toString film.releaseYear ++ "-01-01")
    overview := jsOrS film.shortDescription (jsOrS film.description "No description available.")
    vote_average := 0
    genre_ids := []
    duration := film.duration
    directors := film.directors.getD []
    cast := film.cast.getD []
    releaseYear := film.releaseYear
    spokenLanguages := (film.spokenLanguages.getD []).filter (fun lang => trimStr lang ≠ "")
    availableSubtitles := availableSubtitles
    availableLanguageVersions := availableLanguageVersions
    availableSpecials := availableSpecials
    showtimes := movieShowtimes }

/-- The specials pre-grouping filter inside `getPopularMovies`: when at least one
special is selected, a showtime survives when its (lower-cased, `null` ↦ `""`)
specials label contains some selected special (lower-cased) as a substring. -/
def keepShowtime (filters : Option MovieFilters) (st : CinevilleShowtime) : Bool :=
  match filters with
  | none => true
  | some f =>
    if f.selectedSpecials.length > 0 then
      f.selectedSpecials.any (fun sel =>
        strIncludes (lowerStr (st.specials.getD "")) (lowerStr sel))
    else true

/-- One film group accumulated by `getPopularMovies`: the film payload from the
first occurrence plus the showtimes pushed for that film id. -/
structure FilmGroup where
  film : CinevilleFilm
  showtimes : List CinevilleShowtime
deriving DecidableEq

/-- One step of the `filmShowtimes` insertion-ordered map: push onto an existing
group keyed by the film id, else append a fresh group at the end. -/
def insertShowtime (acc : List FilmGroup) (st : CinevilleShowtime) : List FilmGroup :=
  if acc.any (fun g => g.film.id = st.film.id) then
    acc.map (fun g =>
      if g.film.id = st.film.id then { g with showtimes := g.showtimes ++ [st] } else g)
  else
    acc ++ [{ film := st.film, showtimes := [st] }]

/-- The `response.showtimes.data.forEach` loop of `getPopularMovies`: skip
showtimes dropped by the specials filter, group the rest by film id. -/
def groupFilmShowtimes (filters : Option MovieFilters)
    (data : List CinevilleShowtime) : List FilmGroup :=
  data.foldl (fun acc st => if keepShowtime filters st then insertShowtime acc st else acc) []

/-- The post-grouping subtitle-language fallback filter of `getPopularMovies`. -/
def subtitleLangMatch (selected : List String) (m : Movie) : Bool :=
  selected.any (fun sel =>
    m.availableSubtitles.any (fun sub => strIncludes (lowerStr sub) (lowerStr sel)))

/-- The post-grouping spoken-language filter of `getPopularMovies`. -/
def spokenLangMatch (selected : List String) (m : Movie) : Bool :=
  selected.any (fun sel =>
    m.spokenLanguages.any (fun lang => strIncludes (lowerStr lang) (lowerStr sel)))

/-- The pure aggregation pipeline of `movieService.getPopularMovies`, applied to
the raw showtime records returned by the catalog query: specials-filtered
grouping, conversion to `Movie`, the poster inclusion gate, then the
subtitle-language and spoken-language post-filters. The returned list is the
`results` field of the `MovieResponse` (page and totals are derived constants). -/
def getPopularMovies (data : List CinevilleShowtime)
    (filters : Option MovieFilters) : List Movie :=
  let groups := groupFilmShowtimes filters data
  let movies0 := groups.map (fun g => convertCinevilleFilmToMovie g.film g.showtimes)
  let movies1 := movies0.filter (fun m => m.poster_path ≠ "")
  let movies2 :=
    match filters with
    | some f =>
      if f.selectedSubtitleLanguages ≠ [] then
        movies1.filter (fun m => subtitleLangMatch f.selectedSubtitleLanguages m)
      else movies1
    | none => movies1
  match filters with
  | some f =>
    if f.selectedSpokenLanguages ≠ [] then
      movies2.filter (fun m => spokenLangMatch f.selectedSpokenLanguages m)
    else movies2
  | none => movies2

/-! ### Venue directory and query-scope resolution -/

/-- `getTheaterIdsByCity` (cache omitted: the cached value is exactly this
computation on the fetched directory): ids of theaters whose address city
matches exactly. -/
def getTheaterIdsByCity (theaters : List CinevilleTheater) (cityName : String) :
    List String :=
  (theaters.filter (fun t => t.address.city = cityName)).map (fun t => t.id)

/-- `getAllTheaterIds` (cache omitted): every theater id. -/
def getAllTheaterIds (theaters : List CinevilleTheater) : List String :=
  theaters.map (fun t => t.id)

/-- `resolveVenueIds`: explicit theater selection when non-empty, else the
selected city's theater ids when the city is set (JS truthiness: a `null` or
empty-string city is "not set"), else all theater ids. -/
def resolveVenueIds (theaters : List CinevilleTheater)
    (filters : Option MovieFilters) : List String :=
  match filters with
  | some f =>
    if f.selectedTheaters.length > 0 then
      f.selectedTheaters
    else if (match f.selectedCity with | some c => decide (c ≠ "") | none => false) then
      getTheaterIdsByCity theaters (f.selectedCity.getD "")
    else
      getAllTheaterIds theaters
  | none => getAllTheaterIds theaters

/-- The `gte`/`lt` instant pair produced by `getDateRange`. Its clock-dependent
computation is out of scope for the claims; the value is threaded through. -/
structure DateRange where
  gte : String
  lt : String
deriving DecidableEq

/-- The upstream query filter object assembled by `buildApiFilters`: `none`
fields model keys left out of the object entirely. -/
structure ApiFilters where
  startDate : DateRange
  venueCollections : List String
  venueId : Option (List String)
  subtitles : Option (List String)
deriving DecidableEq

/-- `buildApiFilters`: always carries the date range and an empty venue
collections list; adds the `venueId: { in: ... }` constraint only when the
resolved venue-id list is non-empty; adds the subtitle constraint only when
requested and selected. The date range (computed from the wall clock in the
source) is passed in. -/
def buildApiFilters (dateRange : DateRange) (theaters : List CinevilleTheater)
    (filters : Option MovieFilters) (includeSubtitleFilter : Bool) : ApiFilters :=
  let venueIds := resolveVenueIds theaters filters
  { startDate := dateRange
    venueCollections := []
    venueId := if venueIds.length > 0 then some venueIds else none
    subtitles :=
      if includeSubtitleFilter
          && (match filters with
              | some f => decide (f.selectedSubtitleLanguages.length > 0)
              | none => false) then
        some ((filters.map (fun f => f.selectedSubtitleLanguages)).getD [])
      else none }

/-- `loadTheaters`: returns the cache when populated; otherwise consumes the
fetch result — on success caches and returns the data, on error (the `catch`
branch) returns the empty list without caching. The pair is
(returned list, cache after the call). -/
def loadTheaters (theatersCache : Option (List CinevilleTheater))
    (fetchResult : Except String (List CinevilleTheater)) :
    List CinevilleTheater × Option (List CinevilleTheater) :=
  match theatersCache with
  | some cached => (cached, some cached)
  | none =>
    match fetchResult with
    | Except.ok data => (data, some data)
    | Except.error _ => ([], none)

/-! ### Timeline availability engine (`MovieTimeline` component) -/

/-- `bufferTimeMs`: `Math.max(0, bufferMinutes) * 60 * 1000`. -/
def bufferTimeMs (bufferMinutes : Int) : Int :=
  max 0 bufferMinutes * 60 * 1000

/-- The per-row availability flags computed in the render loop. -/
structure AvailabilityFlags where
  isAvailableAfterSelected : Bool
  isBlockedBySelection : Bool
deriving DecidableEq

/-- The availability classification of one showing against the anchor:
both flags start `false`; inside `if (selectedAnchorEnd)` (JS truthiness — a
`null` anchor end and the instant `0` both skip the block) a showing is
available when it starts at or after anchor end plus buffer, and blocked when
it is not the anchor and not available. -/
def availabilityFlags (selectedAnchorEnd : Option Int) (bufferMs : Int)
    (isAnchorShowtime : Bool) (currentShowtimeStart : Int) : AvailabilityFlags :=
  match selectedAnchorEnd with
  | none => ⟨false, false⟩
  | some t =>
    if t ≠ 0 then
      let avail := decide (currentShowtimeStart ≥ t + bufferMs)
      ⟨avail, !isAnchorShowtime && !avail⟩
    else ⟨false, false⟩

/-- The `{ id, name }` view of a theater column in the timeline. -/
structure TheaterInfo where
  id : String
  name : String
deriving DecidableEq

/-- `orderedTheaters`: keep the persisted ids that still exist (in persisted
order), append the remaining current theaters' ids (in their current order),
then resolve each id back to its theater (`find` + `filter(Boolean)`). -/
def orderedTheaters (theaterOrder : List String) (theaters : List TheaterInfo) :
    List TheaterInfo :=
  let storedIds := theaterOrder.filter (fun id => theaters.any (fun t => t.id = id))
  let remaining := (theaters.filter (fun t => ¬ storedIds.contains t.id)).map (fun t => t.id)
  let finalIds := storedIds ++ remaining
  finalIds.filterMap (fun id => theaters.find? (fun t => t.id = id))

/-! ### Concrete fixtures used by witnesses and counterexamples -/

/-- A sample address in the given city. -/
def mkAddress (city : String) : CinevilleAddress :=
  { street := "Main", houseNumber := "1", postalCode := "1000", city := city, country := "NL" }

/-- A sample theater with the given id, name and city. -/
def mkTheater (id name city : String) : CinevilleTheater :=
  { id := id, slug := id, name := name, address := mkAddress city, cover := none,
    website := none, shortDescription := none, intro := none, description := none,
    ticketInfo := none }

/-- A sample film with the given id, poster and cover assets. -/
def mkFilm (id : String) (poster cover : Option CinevilleAsset) : CinevilleFilm :=
  { id := id, slug := id, title := "Film " ++ id, cover := cover, poster := poster,
    trailer := none, cast := none, duration := 100, directors := none, releaseYear := 2024,
    spokenLanguages := none, contentRatingMinimumAge := none, premiereDate := none,
    shortDescription := "a film", description := "a film", editorsNote := none }

/-- A sample showtime of the given film at the given theater with a specials label. -/
def mkShowtime (id : String) (film : CinevilleFilm) (theater : CinevilleTheater)
    (specials : Option String) : CinevilleShowtime :=
  { id := id, film := film, theater := theater,
    startDate := "2025-05-01T15:00:00.000Z", endDate := "2025-05-01T17:00:00.000Z",
    subtitles := "EN", languageVersion := none, ticketingUrl := none, specials := specials }

/-- Filter state with nothing selected. -/
def emptyFilters : MovieFilters :=
  { selectedCity := none, selectedTheaters := [], selectedSubtitleLanguages := [],
    selectedSpokenLanguages := [], selectedSpecials := [], startTime := none,
    endTime := none, startDate := none, endDate := none }

/-- A poster asset with a non-empty URL. -/
def posterAsset : CinevilleAsset := { url := "https://img/poster.jpg", mime := none, alternativeText := none }

/-- A theater used across witnesses. -/
def thAlpha : CinevilleTheater := mkTheater "A" "Alpha" "Amsterdam"

/-! ### C5: buffer clamping -/

/-- C5 counterexample: the claim says the effective buffer is clamped to at most
180 minutes, but `bufferTimeMs 200 = 12000000 ms`, which exceeds
`180 * 60 * 1000 = 10800000 ms` — the source only applies `Math.max(0, ·)`,
and the 180 limit exists solely as an HTML input attribute. -/
theorem bufferTimeMs_exceeds_claimed_bound :
    bufferTimeMs 200 = 12000000 ∧ ¬ (bufferTimeMs 200 ≤ 180 * 60 * 1000) := by
  constructor
  · decide
  · decide

/-- C5 (amended): the effective buffer `bufferTimeMs b = max 0 b * 60 * 1000` is
always non-negative (clamped below at 0), and it stays within the 180-minute
bound exactly when the caller-supplied minutes do — no upper clamp is applied. -/
theorem bufferTimeMs_clamped_below :
    ∀ b : Int, 0 ≤ bufferTimeMs b ∧ (bufferTimeMs b ≤ 180 * 60 * 1000 ↔ b ≤ 180) := by
  intro b
  unfold bufferTimeMs
  constructor
  · have h : (0 : Int) ≤ max 0 b := le_max_left 0 b
    positivity
  · constructor
    · intro h
      by_contra hb
      push_neg at hb
      have h1 : max 0 b = b := max_eq_right (by linarith)
      rw [h1] at h
      linarith
    · intro h
      have h1 : max 0 b ≤ 180 := max_le (by norm_num) h
      nlinarith

/-! ### C6: venue-directory fetch failure -/

/-- C6 counterexample: the claim says a failed first fetch surfaces a typed
`UpstreamUnavailable` failure distinguishable from success, but `loadTheaters`
catches the error and returns a plain empty list — exactly the value a
zero-venue success returns, with no failure channel in the return type. -/
theorem loadTheaters_error_indistinguishable :
    (loadTheaters none (Except.error "network failure")).fst = [] ∧
    (loadTheaters none (Except.ok ([] : List CinevilleTheater))).fst = [] ∧
    (loadTheaters none (Except.error "network failure")).fst =
      (loadTheaters none (Except.ok [])).fst :=
  ⟨rfl, rfl, rfl⟩

/-- C6 (amended): `loadTheaters` never propagates the fetch error: on a failed
first fetch it returns the empty list and leaves the cache unpopulated; on a
successful fetch it returns and caches the data; with a populated cache it
returns the cache without consuming the fetch. -/
theorem loadTheaters_catches_error :
    (∀ e : String, loadTheaters none (Except.error e) = ([], none)) ∧
    (∀ ts : List CinevilleTheater, loadTheaters none (Except.ok ts) = (ts, some ts)) ∧
    (∀ (cached : List CinevilleTheater) (fr : Except String (List CinevilleTheater)),
      loadTheaters (some cached) fr = (cached, some cached)) :=
  ⟨fun _ => rfl, fun _ => rfl, fun _ _ => rfl⟩

/-! ### C2: availability classification -/

/-- C2 counterexample: the claim quantifies over every anchor end instant `T`,
but for `T = 0` (the epoch) the source's `if (selectedAnchorEnd)` truthiness
guard skips classification: a non-anchor showing starting at `s = 0 ≥ T + B`
with `B = 0` is left not available (and not blocked), where the claim demands
`available`. -/
theorem availability_epoch_anchor_cex :
    (availabilityFlags (some 0) 0 false 0).isAvailableAfterSelected = false ∧
    (availabilityFlags (some 0) 0 false 0).isBlockedBySelection = false ∧
    (0 : Int) ≥ 0 + 0 := by
  refine ⟨rfl, rfl, le_refl 0⟩

/-- C2 (amended): for every anchor end instant `T ≠ 0` and buffer `B`, a
non-anchor showing starting at `s` is available iff `s ≥ T + B` and blocked iff
`s < T + B`; in particular a showing starting exactly at `T + B` is available
and one starting at `T + B - 1` ms is blocked. (When `T = 0` the truthiness
guard treats the anchor as absent.) -/
theorem availability_threshold_classification :
    ∀ t b s : Int, t ≠ 0 →
      ((availabilityFlags (some t) b false s).isAvailableAfterSelected = true ↔ s ≥ t + b) ∧
      ((availabilityFlags (some t) b false s).isBlockedBySelection = true ↔ s < t + b) ∧
      (availabilityFlags (some t) b false (t + b)).isAvailableAfterSelected = true ∧
      (availabilityFlags (some t) b false (t + b - 1)).isBlockedBySelection = true := by
  intro t b s ht
  simp only [availabilityFlags, if_pos ht]
  refine ⟨?_, ?_, ?_, ?_⟩
  · simp
  · simp [not_le]
  · simp
  · simp [not_le]

/-- C2 witness: the amended classification at the concrete anchor end `1000`,
buffer `60`: a showing at `1060 = T + B` is available, and the boundary facts
hold. -/
theorem availability_threshold_classification_witness :
    ((availabilityFlags (some 1000) 60 false 1060).isAvailableAfterSelected = true ↔
      (1060 : Int) ≥ 1000 + 60) ∧
    ((availabilityFlags (some 1000) 60 false 1060).isBlockedBySelection = true ↔
      (1060 : Int) < 1000 + 60) ∧
    (availabilityFlags (some 1000) 60 false (1000 + 60)).isAvailableAfterSelected = true ∧
    (availabilityFlags (some 1000) 60 false (1000 + 60 - 1)).isBlockedBySelection = true :=
  availability_threshold_classification 1000 60 1060 (by decide)

/-! ### C3: venue-scope precedence -/

/-- C3: `resolveVenueIds` obeys strict three-way precedence: a non-empty
explicit theater selection wins outright (any selected city is ignored); else a
selected city resolves to exactly that city's theater ids; else all theater ids
are returned. No union of the three sources is ever formed. -/
theorem resolveVenueIds_precedence :
    ∀ (theaters : List CinevilleTheater) (f : MovieFilters),
      (f.selectedTheaters ≠ [] →
        resolveVenueIds theaters (some f) = f.selectedTheaters) ∧
      (∀ c : String, f.selectedTheaters = [] → f.selectedCity = some c → c ≠ "" →
        resolveVenueIds theaters (some f) = getTheaterIdsByCity theaters c) ∧
      (f.selectedTheaters = [] → f.selectedCity = none →
        resolveVenueIds theaters (some f) = getAllTheaterIds theaters) := by
  intro theaters f
  refine ⟨?_, ?_, ?_⟩
  · intro h
    have hl : 0 < f.selectedTheaters.length := List.length_pos.mpr h
    simp [resolveVenueIds, hl]
  · intro c h hc hne
    have hl : ¬ 0 < f.selectedTheaters.length := by simp [h]
    simp [resolveVenueIds, hl, hc, hne]
  · intro h hc
    have hl : ¬ 0 < f.selectedTheaters.length := by simp [h]
    simp [resolveVenueIds, hl, hc]

/-- C3 witness: with both an explicit theater list and a city set, the explicit
list wins; with only a city set, the city's theaters are returned; with nothing
set, all theaters are returned. -/
theorem resolveVenueIds_precedence_witness :
    resolveVenueIds [thAlpha]
        (some { emptyFilters with selectedTheaters := ["X"], selectedCity := some "Rotterdam" }) =
      ["X"] ∧
    resolveVenueIds [thAlpha] (some { emptyFilters with selectedCity := some "Amsterdam" }) =
      getTheaterIdsByCity [thAlpha] "Amsterdam" ∧
    resolveVenueIds [thAlpha] (some emptyFilters) = getAllTheaterIds [thAlpha] :=
  ⟨(resolveVenueIds_precedence [thAlpha] _).1 (by decide),
   (resolveVenueIds_precedence [thAlpha] _).2.1 "Amsterdam" rfl rfl (by decide),
   (resolveVenueIds_precedence [thAlpha] _).2.2 rfl rfl⟩

/-! ### C10: empty venue scope omits the venueId constraint -/

/-- C10: when the resolved venue-id set is empty, `buildApiFilters` leaves the
`venueId` constraint out of the upstream query entirely (scoping the query to
all venues); when it is non-empty, the constraint carries exactly the resolved
ids. -/
theorem buildApiFilters_empty_scope_omits_venueId :
    ∀ (dr : DateRange) (theaters : List CinevilleTheater) (filters : Option MovieFilters)
      (inc : Bool),
      (resolveVenueIds theaters filters = [] →
        (buildApiFilters dr theaters filters inc).venueId = none) ∧
      (resolveVenueIds theaters filters ≠ [] →
        (buildApiFilters dr theaters filters inc).venueId =
          some (resolveVenueIds theaters filters)) := by
  intro dr theaters filters inc
  constructor
  · intro h
    simp [buildApiFilters, h]
  · intro h
    have hl : 0 < (resolveVenueIds theaters filters).length := List.length_pos.mpr h
    simp [buildApiFilters, hl]

/-- C10 witness: a selected city that matches no known venue resolves to an
empty venue set, and the built query then carries no `venueId` key; with no
filters the venue set is non-empty and the key is present. -/
theorem buildApiFilters_empty_scope_omits_venueId_witness :
    (buildApiFilters ⟨"2025-05-01", "2025-05-02"⟩ [thAlpha]
        (some { emptyFilters with selectedCity := some "Nowhere" }) true).venueId = none ∧
    (buildApiFilters ⟨"2025-05-01", "2025-05-02"⟩ [thAlpha] none false).venueId =
      some (resolveVenueIds [thAlpha] none) :=
  ⟨(buildApiFilters_empty_scope_omits_venueId _ [thAlpha] _ true).1 (by decide),
   (buildApiFilters_empty_scope_omits_venueId _ [thAlpha] none false).2 (by decide)⟩

/-! ### C7: theater-column order merge -/

lemma filterMap_find_map_id (V : List TheaterInfo) :
    ∀ ids : List String, (∀ id ∈ ids, ∃ t ∈ V, t.id = id) →
      (ids.filterMap (fun id => V.find? (fun t => t.id = id))).map (fun t => t.id) = ids := by
  intro ids
  induction ids with
  | nil => intro _; rfl
  | cons a l ih =>
    intro h
    obtain ⟨t, ht, hid⟩ := h a (List.mem_cons_self a l)
    have hsome : (V.find? (fun t => t.id = a)).isSome :=
      List.find?_isSome.mpr ⟨t, ht, by simp [hid]⟩
    obtain ⟨u, hu⟩ := Option.isSome_iff_exists.mp hsome
    have huid : u.id = a := by
      have := List.find?_some hu
      simpa using this
    rw [List.filterMap_cons, hu]
    simp only [List.map_cons, huid]
    rw [ih (fun id hm => h id (List.mem_cons_of_mem a hm))]

lemma map_filter_swap {α β : Type} (f : α → β) (p : β → Bool) :
    ∀ l : List α, (l.filter (fun a => p (f a))).map f = (l.map f).filter p := by
  intro l
  induction l with
  | nil => rfl
  | cons a t ih =>
    by_cases h : p (f a) = true
    · simp [List.filter_cons, h, ih]
    · simp [List.filter_cons, h, ih]

/-- C7: the merged theater-column order is the persisted ids that occur in the
current theater set, in persisted order, followed by the current theater ids
not mentioned in the persisted order, in their current (directory-sorted)
order; in particular persisted `[B, A]` against current `{A, B, C}` yields
`[B, A, C]`. -/
theorem orderedTheaters_merge :
    (∀ (P : List String) (V : List TheaterInfo),
      (orderedTheaters P V).map (fun t => t.id) =
        P.filter (fun id => (V.map (fun t => t.id)).contains id) ++
        (V.map (fun t => t.id)).filter (fun id => !(P.contains id))) ∧
    (orderedTheaters ["B", "A"]
        [{ id := "A", name := "Alpha" }, { id := "B", name := "Beta" },
         { id := "C", name := "Gamma" }]).map (fun t => t.id) = ["B", "A", "C"] := by
  constructor
  · intro P V
    simp only [orderedTheaters]
    have hstored :
        P.filter (fun id => V.any (fun t => t.id = id)) =
          P.filter (fun id => (V.map (fun t => t.id)).contains id) := by
      apply List.filter_congr
      intro id _
      apply Bool.eq_iff_iff.mpr
      simp [List.any_eq_true, List.mem_map]
    rw [hstored]
    set S := P.filter (fun id => (V.map (fun t => t.id)).contains id) with hS
    have hrem :
        ((V.filter (fun t => ¬ S.contains t.id)).map (fun t => t.id)) =
          (V.map (fun t => t.id)).filter (fun id => !(P.contains id)) := by
      rw [map_filter_swap (fun t => t.id) (fun id => ¬ S.contains id) V]
      apply List.filter_congr
      intro id hid
      apply Bool.eq_iff_iff.mpr
      have hidV : (V.map (fun t => t.id)).contains id := by
        simpa [List.elem_iff] using hid
      constructor
      · intro h
        simp only [decide_eq_true_eq] at h
        simp only [Bool.not_eq_true', ← Bool.not_eq_true]
        intro hP
        apply h
        rw [hS]
        simp only [List.elem_iff] at hP ⊢
        exact List.mem_filter.mpr ⟨hP, hidV⟩
      · intro h
        simp only [Bool.not_eq_true'] at h
        simp only [decide_eq_true_eq]
        intro hmem
        rw [hS] at hmem
        simp only [List.elem_iff] at hmem h
        exact absurd (List.mem_filter.mp hmem).1 (by simpa using h)
    rw [hrem]
    apply filterMap_find_map_id
    intro id hid
    rcases List.mem_append.mp hid with h | h
    · have : (V.map (fun t => t.id)).contains id := by
        have := (List.mem_filter.mp h).2
        simpa using this
      simp only [List.elem_iff, List.mem_map] at this
      obtain ⟨t, ht, hid'⟩ := this
      exact ⟨t, ht, hid'⟩
    · have := (List.mem_filter.mp h).1
      simp only [List.mem_map] at this
      obtain ⟨t, ht, hid'⟩ := this
      exact ⟨t, ht, hid'⟩
  · decide

/-! ### C9: poster/cover fallback and the inclusion gate -/

/-- C9: `poster_path` is the poster URL, falling back to the cover URL, falling
back to `""`; a film with no poster asset but a cover asset with non-empty URL
gets the cover URL (hence passes the gate); a film whose poster and cover URLs
are both absent/empty gets `""`; and with no language post-filters active a
grouped film is in the output exactly when its `poster_path` is non-empty. -/
theorem poster_fallback_and_gate :
    (∀ (film : CinevilleFilm) (sts : List CinevilleShowtime) (a : CinevilleAsset),
      film.poster = none → film.cover = some a → a.url ≠ "" →
        (convertCinevilleFilmToMovie film sts).poster_path = a.url ∧
        (convertCinevilleFilmToMovie film sts).poster_path ≠ "") ∧
    (∀ (film : CinevilleFilm) (sts : List CinevilleShowtime),
      (film.poster.map (fun a => a.url)).getD "" = "" →
      (film.cover.map (fun a => a.url)).getD "" = "" →
        (convertCinevilleFilmToMovie film sts).poster_path = "") ∧
    (∀ (data : List CinevilleShowtime) (f : MovieFilters),
      f.selectedSubtitleLanguages = [] → f.selectedSpokenLanguages = [] →
      ∀ g ∈ groupFilmShowtimes (some f) data,
        (convertCinevilleFilmToMovie g.film g.showtimes ∈ getPopularMovies data (some f) ↔
          (convertCinevilleFilmToMovie g.film g.showtimes).poster_path ≠ "")) := by
  refine ⟨?_, ?_, ?_⟩
  · intro film sts a hp hc hu
    have : (convertCinevilleFilmToMovie film sts).poster_path = a.url := by
      simp [convertCinevilleFilmToMovie, hp, hc, jsOrOS, jsOrS, hu]
    exact ⟨this, this ▸ hu⟩
  · intro film sts hp hc
    cases hpo : film.poster with
    | none =>
      cases hco : film.cover with
      | none => simp [convertCinevilleFilmToMovie, hpo, hco, jsOrOS]
      | some a =>
        rw [hco] at hc
        simp only [Option.map_some', Option.getD_some] at hc
        simp [convertCinevilleFilmToMovie, hpo, hco, jsOrOS, jsOrS, hc]
    | some a =>
      rw [hpo] at hp
      simp only [Option.map_some', Option.getD_some] at hp
      cases hco : film.cover with
      | none => simp [convertCinevilleFilmToMovie, hpo, hco, jsOrOS, jsOrS, hp]
      | some b =>
        rw [hco] at hc
        simp only [Option.map_some', Option.getD_some] at hc
        simp [convertCinevilleFilmToMovie, hpo, hco, jsOrOS, jsOrS, hp, hc]
  · intro data f hsub hspk g hg
    have hpipe :
        getPopularMovies data (some f) =
          ((groupFilmShowtimes (some f) data).map
            (fun g => convertCinevilleFilmToMovie g.film g.showtimes)).filter
              (fun m => m.poster_path ≠ "") := by
      simp [getPopularMovies, hsub, hspk]
    rw [hpipe]
    constructor
    · intro hm
      have := (List.mem_filter.mp hm).2
      simpa using this
    · intro hne
      exact List.mem_filter.mpr
        ⟨List.mem_map_of_mem _ hg, by simpa using hne⟩

/-- A cover asset with a non-empty URL, for the C9 witness. -/
def coverAsset : CinevilleAsset := { url := "https://img/cover.jpg", mime := none, alternativeText := none }

/-- A film with no poster but a cover asset. -/
def filmCov : CinevilleFilm := mkFilm "fc" none (some coverAsset)

/-- A showtime of `filmCov`. -/
def stCov : CinevilleShowtime := mkShowtime "s1" filmCov thAlpha none

/-- C9 witness: the concrete cover-only film gets the cover URL as
`poster_path`, a film lacking both assets gets `""`, and the gate membership
iff holds for the concrete grouped film. -/
theorem poster_fallback_and_gate_witness :
    ((convertCinevilleFilmToMovie filmCov [stCov]).poster_path = coverAsset.url ∧
     (convertCinevilleFilmToMovie filmCov [stCov]).poster_path ≠ "") ∧
    (convertCinevilleFilmToMovie (mkFilm "np" none none) []).poster_path = "" ∧
    (convertCinevilleFilmToMovie filmCov [stCov] ∈ getPopularMovies [stCov] (some emptyFilters) ↔
      (convertCinevilleFilmToMovie filmCov [stCov]).poster_path ≠ "") :=
  ⟨poster_fallback_and_gate.1 filmCov [stCov] coverAsset rfl rfl (by decide),
   poster_fallback_and_gate.2.1 (mkFilm "np" none none) [] (by decide) (by decide),
   poster_fallback_and_gate.2.2 [stCov] emptyFilters rfl rfl ⟨filmCov, [stCov]⟩ (by decide)⟩

/-! ### Grouping machinery shared by the aggregation claims -/

lemma mem_dedupStep {α : Type} [DecidableEq α] (acc : List α) (y x : α) :
    x ∈ dedupStep acc y ↔ x ∈ acc ∨ x = y := by
  unfold dedupStep
  by_cases h : y ∈ acc
  · simp only [if_pos h]
    constructor
    · exact Or.inl
    · rintro (hx | rfl)
      · exact hx
      · exact h
  · simp [if_neg h]

lemma mem_foldl_dedupStep {α : Type} [DecidableEq α] :
    ∀ (l acc : List α) (x : α), x ∈ l.foldl dedupStep acc ↔ x ∈ acc ∨ x ∈ l := by
  intro l
  induction l with
  | nil => intro acc x; simp
  | cons a t ih =>
    intro acc x
    rw [List.foldl_cons, ih (dedupStep acc a) x]
    simp only [mem_dedupStep, List.mem_cons]
    tauto

lemma mem_firstDedup {α : Type} [DecidableEq α] (l : List α) (x : α) :
    x ∈ firstDedup l ↔ x ∈ l := by
  unfold firstDedup
  rw [mem_foldl_dedupStep]
  simp

lemma nodup_dedupStep {α : Type} [DecidableEq α] (acc : List α) (y : α) (h : acc.Nodup) :
    (dedupStep acc y).Nodup := by
  unfold dedupStep
  by_cases hy : y ∈ acc
  · simpa [if_pos hy] using h
  · simp [if_neg hy, List.nodup_append, h, hy]

lemma nodup_foldl_dedupStep {α : Type} [DecidableEq α] :
    ∀ (l acc : List α), acc.Nodup → (l.foldl dedupStep acc).Nodup := by
  intro l
  induction l with
  | nil => intro acc h; exact h
  | cons a t ih => intro acc h; exact ih _ (nodup_dedupStep acc a h)

lemma nodup_firstDedup {α : Type} [DecidableEq α] (l : List α) : (firstDedup l).Nodup :=
  nodup_foldl_dedupStep l [] List.nodup_nil

lemma firstDedup_concat {α : Type} [DecidableEq α] (l : List α) (x : α) :
    firstDedup (l ++ [x]) = dedupStep (firstDedup l) x := by
  unfold firstDedup
  rw [List.foldl_append]
  rfl

/-- Invariant of the grouping fold: after processing `processed`, the group keys
are the first-occurrence film ids, each group's showtimes are exactly the
processed records carrying its film id (in input order), and each group's film
payload came from a processed record with that id. -/
def GroupsSpec (processed : List CinevilleShowtime) (acc : List FilmGroup) : Prop :=
  acc.map (fun g => g.film.id) = firstDedup (processed.map (fun st => st.film.id)) ∧
  (∀ g ∈ acc, g.showtimes = processed.filter (fun st => st.film.id = g.film.id)) ∧
  (∀ g ∈ acc, ∃ st ∈ processed, st.film = g.film)

lemma groupsSpec_insert (processed : List CinevilleShowtime) (acc : List FilmGroup)
    (st : CinevilleShowtime) (h : GroupsSpec processed acc) :
    GroupsSpec (processed ++ [st]) (insertShowtime acc st) := by
  obtain ⟨hkeys, hshow, hfilm⟩ := h
  by_cases hc : (acc.any (fun g => g.film.id = st.film.id)) = true
  · have hmem : st.film.id ∈ acc.map (fun g => g.film.id) := by
      simp only [List.any_eq_true, decide_eq_true_eq] at hc
      obtain ⟨g, hg, hid⟩ := hc
      exact List.mem_map.mpr ⟨g, hg, hid⟩
    rw [insertShowtime, if_pos hc]
    refine ⟨?_, ?_, ?_⟩
    · rw [List.map_map]
      have hfn : ((fun g => g.film.id) ∘ fun g =>
          if g.film.id = st.film.id then { g with showtimes := g.showtimes ++ [st] } else g)
          = fun (g : FilmGroup) => g.film.id := by
        funext g
        by_cases hg : g.film.id = st.film.id <;> simp [hg]
      rw [hfn, hkeys, List.map_append]
      simp only [List.map_cons, List.map_nil]
      rw [firstDedup_concat]
      have hmem2 : st.film.id ∈ firstDedup (processed.map (fun st => st.film.id)) := by
        rw [← hkeys]; exact hmem
      unfold dedupStep
      rw [if_pos hmem2]
    · intro g' hg'
      obtain ⟨g, hg, rfl⟩ := List.mem_map.mp hg'
      by_cases hid : g.film.id = st.film.id
      · simp only [if_pos hid]
        rw [List.filter_append, ← hshow g hg]
        simp [hid]
      · simp only [if_neg hid]
        rw [List.filter_append, ← hshow g hg]
        have : st.film.id ≠ g.film.id := fun he => hid he.symm
        simp [this]
    · intro g' hg'
      obtain ⟨g, hg, rfl⟩ := List.mem_map.mp hg'
      obtain ⟨st', hst', heq⟩ := hfilm g hg
      refine ⟨st', List.mem_append_left _ hst', ?_⟩
      by_cases hid : g.film.id = st.film.id <;> simp [hid, heq]
  · have hnot : ∀ g ∈ acc, g.film.id ≠ st.film.id := by
      intro g hg he
      exact hc (List.any_eq_true.mpr ⟨g, hg, by simpa using he⟩)
    have hnotmem : st.film.id ∉ acc.map (fun g => g.film.id) := by
      intro hmem
      obtain ⟨g, hg, hid⟩ := List.mem_map.mp hmem
      exact hnot g hg hid
    rw [insertShowtime, if_neg hc]
    have hnotproc : st.film.id ∉ processed.map (fun st => st.film.id) := by
      rw [← mem_firstDedup, ← hkeys]
      exact hnotmem
    refine ⟨?_, ?_, ?_⟩
    · rw [List.map_append, hkeys, List.map_append]
      simp only [List.map_cons, List.map_nil]
      rw [firstDedup_concat]
      have hnm : st.film.id ∉ firstDedup (processed.map (fun st => st.film.id)) := by
        rw [← hkeys]; exact hnotmem
      unfold dedupStep
      rw [if_neg hnm]
    · intro g' hg'
      rcases List.mem_append.mp hg' with hg | hg
      · rw [List.filter_append, ← hshow g' hg]
        have : st.film.id ≠ g'.film.id := fun he => hnot g' hg he.symm
        simp [this]
      · have heq : g' = { film := st.film, showtimes := [st] } := by simpa using hg
        subst heq
        rw [List.filter_append]
        have hnil : processed.filter (fun st' => st'.film.id = st.film.id) = [] := by
          rw [List.filter_eq_nil_iff]
          intro a ha hpa
          apply hnotproc
          simp only [decide_eq_true_eq] at hpa
          exact List.mem_map.mpr ⟨a, ha, hpa⟩
        simp [hnil]
    · intro g' hg'
      rcases List.mem_append.mp hg' with hg | hg
      · obtain ⟨st', hst', heq⟩ := hfilm g' hg
        exact ⟨st', List.mem_append_left _ hst', heq⟩
      · have heq : g' = { film := st.film, showtimes := [st] } := by simpa using hg
        subst heq
        exact ⟨st, List.mem_append_right _ (List.mem_singleton_self st), rfl⟩

lemma groupFilmShowtimes_eq_foldl (filters : Option MovieFilters)
    (data : List CinevilleShowtime) :
    groupFilmShowtimes filters data =
      (data.filter (keepShowtime filters)).foldl insertShowtime [] := by
  unfold groupFilmShowtimes
  suffices h : ∀ (l : List CinevilleShowtime) (acc : List FilmGroup),
      l.foldl (fun acc st => if keepShowtime filters st then insertShowtime acc st else acc) acc
        = (l.filter (keepShowtime filters)).foldl insertShowtime acc by
    exact h data []
  intro l
  induction l with
  | nil => intro acc; rfl
  | cons a t ih =>
    intro acc
    rw [List.foldl_cons, List.filter_cons]
    by_cases h : keepShowtime filters a = true
    · simp [h, ih]
    · simp [h, ih]

lemma groupsSpec_foldl :
    ∀ (l processed : List CinevilleShowtime) (acc : List FilmGroup),
      GroupsSpec processed acc → GroupsSpec (processed ++ l) (l.foldl insertShowtime acc) := by
  intro l
  induction l with
  | nil => intro processed acc h; simpa using h
  | cons a t ih =>
    intro processed acc h
    rw [List.foldl_cons]
    have h2 := ih (processed ++ [a]) (insertShowtime acc a) (groupsSpec_insert processed acc a h)
    simpa [List.append_assoc] using h2

lemma groupsSpec_main (filters : Option MovieFilters) (data : List CinevilleShowtime) :
    GroupsSpec (data.filter (keepShowtime filters)) (groupFilmShowtimes filters data) := by
  rw [groupFilmShowtimes_eq_foldl]
  have h0 : GroupsSpec [] [] := ⟨rfl, by simp, by simp⟩
  simpa using groupsSpec_foldl (data.filter (keepShowtime filters)) [] [] h0

/-- The combined post-grouping predicate applied after conversion: the poster
gate, then (when selected) the subtitle-language and spoken-language filters. -/
def moviePass (filters : Option MovieFilters) (m : Movie) : Bool :=
  (match filters with
   | some f =>
     if f.selectedSpokenLanguages ≠ [] then spokenLangMatch f.selectedSpokenLanguages m
     else true
   | none => true) &&
  ((match filters with
    | some f =>
      if f.selectedSubtitleLanguages ≠ [] then subtitleLangMatch f.selectedSubtitleLanguages m
      else true
    | none => true) &&
   !(decide (m.poster_path = "")))

lemma getPopularMovies_eq_filter_chain (data : List CinevilleShowtime)
    (filters : Option MovieFilters) :
    getPopularMovies data filters =
      ((groupFilmShowtimes filters data).map
        (fun g => convertCinevilleFilmToMovie g.film g.showtimes)).filter
          (moviePass filters) := by
  cases filters with
  | none =>
    simp only [getPopularMovies]
    apply List.filter_congr
    intro m _
    simp [moviePass]
  | some f =>
    simp only [getPopularMovies]
    by_cases h1 : f.selectedSubtitleLanguages = []
    · by_cases h2 : f.selectedSpokenLanguages = []
      · rw [if_neg (fun h => h h2), if_neg (fun h => h h1)]
        apply List.filter_congr
        intro m _
        simp [moviePass, h1, h2]
      · rw [if_pos h2, if_neg (fun h => h h1), List.filter_filter]
        apply List.filter_congr
        intro m _
        simp [moviePass, h1, h2]
    · by_cases h2 : f.selectedSpokenLanguages = []
      · rw [if_neg (fun h => h h2), if_pos h1, List.filter_filter]
        apply List.filter_congr
        intro m _
        simp [moviePass, h1, h2]
      · rw [if_pos h2, if_pos h1, List.filter_filter, List.filter_filter]
        apply List.filter_congr
        intro m _
        simp [moviePass, h1, h2, Bool.and_assoc]

/-! ### C1: output movies have a poster and a showtime -/

/-- C1: for every raw showtime list and every filter state, each movie returned
by `getPopularMovies` has a non-empty `poster_path` and a non-empty showtime
list — no poster-less or showtime-less film is ever emitted. -/
theorem aggregated_movies_have_poster_and_showtime :
    ∀ (data : List CinevilleShowtime) (filters : Option MovieFilters) (m : Movie),
      m ∈ getPopularMovies data filters → m.poster_path ≠ "" ∧ m.showtimes ≠ [] := by
  intro data filters m hm
  rw [getPopularMovies_eq_filter_chain] at hm
  obtain ⟨hm0, hpass⟩ := List.mem_filter.mp hm
  obtain ⟨g, hg, rfl⟩ := List.mem_map.mp hm0
  constructor
  · have hp : (!(decide ((convertCinevilleFilmToMovie g.film g.showtimes).poster_path = ""))) = true := by
      unfold moviePass at hpass
      simp only [Bool.and_eq_true] at hpass
      exact hpass.2.2
    simpa using hp
  · obtain ⟨hkeys, hshow, _⟩ := groupsSpec_main filters data
    have hkey : g.film.id ∈ (groupFilmShowtimes filters data).map (fun g => g.film.id) :=
      List.mem_map.mpr ⟨g, hg, rfl⟩
    rw [hkeys, mem_firstDedup] at hkey
    obtain ⟨st, hst, hstid⟩ := List.mem_map.mp hkey
    have hne : g.showtimes ≠ [] := by
      rw [hshow g hg]
      intro hnil
      have := List.filter_eq_nil_iff.mp hnil st hst
      simp [hstid] at this
    have hconv : (convertCinevilleFilmToMovie g.film g.showtimes).showtimes.length
        = g.showtimes.length := by
      simp [convertCinevilleFilmToMovie]
    intro hnil
    apply hne
    have := congrArg List.length hnil
    rw [hconv] at this
    exact List.length_eq_zero.mp this

/-- A film with a poster asset, for witnesses. -/
def filmPos : CinevilleFilm := mkFilm "fp" (some posterAsset) none

/-- A showtime of `filmPos`. -/
def stPos : CinevilleShowtime := mkShowtime "sp" filmPos thAlpha none

/-- C1 witness: the single aggregated movie produced from one concrete
poster-carrying showtime has a non-empty poster URL and a non-empty showtime
list. -/
theorem aggregated_movies_have_poster_and_showtime_witness :
    (convertCinevilleFilmToMovie filmPos [stPos]).poster_path ≠ "" ∧
    (convertCinevilleFilmToMovie filmPos [stPos]).showtimes ≠ [] :=
  aggregated_movies_have_poster_and_showtime [stPos] none
    (convertCinevilleFilmToMovie filmPos [stPos]) (by decide)

/-! ### C4: specials pre-grouping filter -/

lemma lowerStr_eq_empty_iff (s : String) : lowerStr s = "" ↔ s = "" := by
  constructor
  · intro h
    have hd : s.data.map Char.toLower = [] := congrArg String.data h
    have hnil : s.data = [] := List.map_eq_nil_iff.mp hd
    cases s
    simp_all
  · intro h
    subst h
    rfl

lemma strIncludes_empty_left (p : String) : strIncludes "" p = true ↔ p = "" := by
  constructor
  · intro h
    have hd : p.data = [] := by
      have hb : p.data.isEmpty = true := h
      simpa [List.isEmpty_iff] using hb
    cases p
    simp_all
  · intro h
    subst h
    rfl

lemma output_movie_id_from_kept (data : List CinevilleShowtime) (filters : Option MovieFilters) :
    ∀ m ∈ getPopularMovies data filters,
      ∃ st ∈ data, keepShowtime filters st = true ∧ st.film.id = m.id := by
  intro m hm
  rw [getPopularMovies_eq_filter_chain] at hm
  obtain ⟨hm0, _⟩ := List.mem_filter.mp hm
  obtain ⟨g, hg, rfl⟩ := List.mem_map.mp hm0
  obtain ⟨hkeys, _, _⟩ := groupsSpec_main filters data
  have hkey : g.film.id ∈ (groupFilmShowtimes filters data).map (fun g => g.film.id) :=
    List.mem_map.mpr ⟨g, hg, rfl⟩
  rw [hkeys, mem_firstDedup] at hkey
  obtain ⟨st, hst, hstid⟩ := List.mem_map.mp hkey
  obtain ⟨hstdata, hstkeep⟩ := List.mem_filter.mp hst
  refine ⟨st, hstdata, hstkeep, ?_⟩
  simpa [convertCinevilleFilmToMovie] using hstid

/-- The `{3D}` specials selection of the spec's scenario. -/
def fThreeD : MovieFilters := { emptyFilters with selectedSpecials := ["3D"] }

/-- A showtime of the poster-carrying film labelled `Open Air 3D Screening`. -/
def stOpenAir : CinevilleShowtime :=
  mkShowtime "s3" filmPos thAlpha (some "Open Air 3D Screening")

/-- A second poster-carrying film. -/
def filmSub : CinevilleFilm := mkFilm "fs" (some posterAsset) none

/-- A showtime of `filmSub` labelled `Subtitled`. -/
def stSubtitled : CinevilleShowtime := mkShowtime "s4" filmSub thAlpha (some "Subtitled")

/-- C4 counterexample: the claim says a `null`/empty specials label matches
nothing whenever at least one special is selected, but with the selected set
`{""}` (representable in the filter type) the code keeps a showtime whose
specials label is `null` — `"".includes("")` is `true` — and its film reaches
the output. -/
theorem specials_null_label_matches_empty_selected :
    stPos.specials = none ∧
    keepShowtime (some { emptyFilters with selectedSpecials := [""] }) stPos = true ∧
    (getPopularMovies [stPos] (some { emptyFilters with selectedSpecials := [""] })).length = 1 :=
  ⟨rfl, by decide, by decide⟩

/-- C4 (amended): with at least one special selected, a showtime is kept iff
its specials label (`null` ↦ `""`, lower-cased) contains some selected special
(lower-cased) as a substring — OR semantics; a `null`/empty label matches
nothing provided no selected special is itself the empty string (the empty
string matches every label); a film all of whose showtimes are dropped never
appears in the output; and in the spec's scenario with selected `{3D}`,
`Open Air 3D Screening` survives while `Subtitled` is dropped. -/
theorem specials_predicate_semantics :
    (∀ (f : MovieFilters) (st : CinevilleShowtime), f.selectedSpecials ≠ [] →
      (keepShowtime (some f) st = true ↔
        ∃ sel ∈ f.selectedSpecials,
          strIncludes (lowerStr (st.specials.getD "")) (lowerStr sel) = true)) ∧
    (∀ (f : MovieFilters) (st : CinevilleShowtime), f.selectedSpecials ≠ [] →
      (∀ sel ∈ f.selectedSpecials, sel ≠ "") → st.specials.getD "" = "" →
      keepShowtime (some f) st = false) ∧
    (∀ (f : MovieFilters) (data : List CinevilleShowtime) (fid : String),
      (∀ st ∈ data, st.film.id = fid → keepShowtime (some f) st = false) →
      ∀ m ∈ getPopularMovies data (some f), m.id ≠ fid) ∧
    (keepShowtime (some fThreeD) stOpenAir = true ∧
     keepShowtime (some fThreeD) stSubtitled = false) := by
  refine ⟨?_, ?_, ?_, by decide, by decide⟩
  · intro f st h
    have hl : 0 < f.selectedSpecials.length := List.length_pos.mpr h
    simp [keepShowtime, if_pos hl, List.any_eq_true]
  · intro f st h hne hlabel
    have hl : 0 < f.selectedSpecials.length := List.length_pos.mpr h
    simp only [keepShowtime, if_pos hl]
    rw [hlabel]
    cases hany : (f.selectedSpecials.any fun sel => strIncludes (lowerStr "") (lowerStr sel)) with
    | false => rfl
    | true =>
      exfalso
      obtain ⟨sel, hsel, hinc⟩ := List.any_eq_true.mp hany
      have hinc2 : strIncludes "" (lowerStr sel) = true := hinc
      have hsel0 : sel = "" :=
        (lowerStr_eq_empty_iff sel).mp ((strIncludes_empty_left (lowerStr sel)).mp hinc2)
      exact hne sel hsel hsel0
  · intro f data fid hdrop m hm heid
    obtain ⟨st, hstdata, hstkeep, hstid⟩ := output_movie_id_from_kept data (some f) m hm
    have hfalse := hdrop st hstdata (by rw [hstid, heid])
    rw [hstkeep] at hfalse
    simp at hfalse

/-- C4 witness: the amended predicate semantics instantiated at the scenario's
concrete inputs: the kept-iff characterization at `{3D}` and
`Open Air 3D Screening`; a `null`-label showtime dropped under the non-empty
selected special `3D`; and the film of the all-dropped `Subtitled` showtime
(`fs`) absent from the concrete output. -/
theorem specials_predicate_semantics_witness :
    (keepShowtime (some fThreeD) stOpenAir = true ↔
      ∃ sel ∈ fThreeD.selectedSpecials,
        strIncludes (lowerStr (stOpenAir.specials.getD "")) (lowerStr sel) = true) ∧
    keepShowtime (some fThreeD) stPos = false ∧
    (convertCinevilleFilmToMovie filmPos [stOpenAir]).id ≠ "fs" :=
  ⟨specials_predicate_semantics.1 fThreeD stOpenAir (by decide),
   specials_predicate_semantics.2.1 fThreeD stPos (by decide) (by decide) (by decide),
   specials_predicate_semantics.2.2.1 fThreeD [stOpenAir, stSubtitled] "fs" (by decide)
     (convertCinevilleFilmToMovie filmPos [stOpenAir]) (by decide)⟩

/-! ### C8: permutation invariance of aggregation -/

/-- The order-insensitive abstraction of an aggregated movie: its film id, the
set of member showtime ids, and the three derived facet sets. -/
def movieAbs (m : Movie) :
    String × Finset String × Finset String × Finset String × Finset String :=
  (m.id, (m.showtimes.map (fun s => s.id)).toFinset, m.availableSubtitles.toFinset,
   m.availableLanguageVersions.toFinset, m.availableSpecials.toFinset)

/-- All records sharing a film id carry an identical film payload. -/
abbrev FilmCoherent (l : List CinevilleShowtime) : Prop :=
  ∀ st ∈ l, ∀ st2 ∈ l, st.film.id = st2.film.id → st.film = st2.film

/-- Placeholder film used only under an impossible `find?` miss. -/
def defaultFilm : CinevilleFilm :=
  { id := "", slug := "", title := "", cover := none, poster := none, trailer := none,
    cast := none, duration := 0, directors := none, releaseYear := 0,
    spokenLanguages := none, contentRatingMinimumAge := none, premiereDate := none,
    shortDescription := "", description := "", editorsNote := none }

/-- The canonical group for a film id over a processed record list: the film of
the first record with that id and the in-order sublist of its records. -/
def canonGroup (l : List CinevilleShowtime) (fid : String) : FilmGroup :=
  { film := ((l.find? (fun st => st.film.id = fid)).map (fun st => st.film)).getD defaultFilm
    showtimes := l.filter (fun st => st.film.id = fid) }

lemma map_key_determines {β γ : Type} (key : γ → β) (F : β → γ) :
    ∀ (xs : List γ) (ks : List β), xs.map key = ks → (∀ x ∈ xs, x = F (key x)) →
      xs = ks.map F := by
  intro xs
  induction xs with
  | nil =>
    intro ks h _
    rw [← h]
    rfl
  | cons a t ih =>
    intro ks h hx
    cases ks with
    | nil => simp at h
    | cons k kt =>
      rw [List.map_cons] at h
      injection h with h1 h2
      rw [List.map_cons, ← h1, ← hx a (List.mem_cons_self a t),
        ← ih kt h2 (fun x hx' => hx x (List.mem_cons_of_mem a hx'))]

lemma group_eq_canon (filters : Option MovieFilters) (data : List CinevilleShowtime)
    (hco : FilmCoherent (data.filter (keepShowtime filters))) :
    ∀ g ∈ groupFilmShowtimes filters data,
      g = canonGroup (data.filter (keepShowtime filters)) g.film.id := by
  intro g hg
  obtain ⟨hkeys, hshow, hfilm⟩ := groupsSpec_main filters data
  obtain ⟨st, hst, hstfilm⟩ := hfilm g hg
  have hstid : st.film.id = g.film.id := by rw [hstfilm]
  have hsome :
      ((data.filter (keepShowtime filters)).find? (fun st => st.film.id = g.film.id)).isSome :=
    List.find?_isSome.mpr ⟨st, hst, by simp [hstid]⟩
  obtain ⟨u, hu⟩ := Option.isSome_iff_exists.mp hsome
  have humem := List.mem_of_find?_eq_some hu
  have huid : u.film.id = g.film.id := by simpa using List.find?_some hu
  have hufilm : u.film = g.film := by
    have h1 := hco u humem st hst (by rw [huid, hstid])
    rw [h1, hstfilm]
  have hshoweq := hshow g hg
  cases g with
  | mk gf gs =>
    simp only at hufilm hshoweq
    simp [canonGroup, hu, hufilm, hshoweq]

lemma groups_canon_form (filters : Option MovieFilters) (data : List CinevilleShowtime)
    (hco : FilmCoherent (data.filter (keepShowtime filters))) :
    groupFilmShowtimes filters data =
      (firstDedup ((data.filter (keepShowtime filters)).map (fun st => st.film.id))).map
        (canonGroup (data.filter (keepShowtime filters))) :=
  map_key_determines (fun g => g.film.id) _ _ _ (groupsSpec_main filters data).1
    (group_eq_canon filters data hco)

lemma perm_toFinset {α : Type} [DecidableEq α] {a b : List α} (h : a.Perm b) :
    a.toFinset = b.toFinset := by
  ext x
  simp [List.mem_toFinset, h.mem_iff]

lemma firstDedup_toFinset_of_perm {α : Type} [DecidableEq α] {a b : List α} (h : a.Perm b) :
    (firstDedup a).toFinset = (firstDedup b).toFinset := by
  ext x
  simp [List.mem_toFinset, mem_firstDedup, h.mem_iff]

lemma any_congr_fun {α : Type} (l : List α) (f g : α → Bool) (h : ∀ x ∈ l, f x = g x) :
    l.any f = l.any g := by
  induction l with
  | nil => rfl
  | cons a t ih =>
    simp only [List.any_cons]
    rw [h a (List.mem_cons_self a t), ih (fun x hx => h x (List.mem_cons_of_mem a hx))]

lemma any_congr_mem {α : Type} (t t' : List α) (p : α → Bool) (h : ∀ x, x ∈ t ↔ x ∈ t') :
    t.any p = t'.any p := by
  apply Bool.eq_iff_iff.mpr
  simp only [List.any_eq_true]
  constructor
  · rintro ⟨x, hx, hp⟩
    exact ⟨x, (h x).mp hx, hp⟩
  · rintro ⟨x, hx, hp⟩
    exact ⟨x, (h x).mpr hx, hp⟩

lemma conv_abs_eq (film : CinevilleFilm) {S S' : List CinevilleShowtime} (h : S.Perm S') :
    movieAbs (convertCinevilleFilmToMovie film S) =
      movieAbs (convertCinevilleFilmToMovie film S') := by
  simp only [movieAbs, convertCinevilleFilmToMovie, Prod.mk.injEq]
  refine ⟨by trivial, ?_, ?_, ?_, ?_⟩
  · rw [List.map_map, List.map_map]
    exact perm_toFinset (h.map _)
  · exact firstDedup_toFinset_of_perm (((h.map _).filter _).map _)
  · exact firstDedup_toFinset_of_perm ((h.filter _).map _)
  · exact firstDedup_toFinset_of_perm (((h.map _).filter _).map _)

lemma conv_pass_eq (filters : Option MovieFilters) (film : CinevilleFilm)
    {S S' : List CinevilleShowtime} (h : S.Perm S') :
    moviePass filters (convertCinevilleFilmToMovie film S) =
      moviePass filters (convertCinevilleFilmToMovie film S') := by
  have hposter : (convertCinevilleFilmToMovie film S).poster_path =
      (convertCinevilleFilmToMovie film S').poster_path := rfl
  have hspoken : (convertCinevilleFilmToMovie film S).spokenLanguages =
      (convertCinevilleFilmToMovie film S').spokenLanguages := rfl
  have hsubsmem : ∀ x, x ∈ (convertCinevilleFilmToMovie film S).availableSubtitles ↔
      x ∈ (convertCinevilleFilmToMovie film S').availableSubtitles := by
    intro x
    show x ∈ firstDedup _ ↔ x ∈ firstDedup _
    rw [mem_firstDedup, mem_firstDedup]
    exact (((h.map _).filter _).map _).mem_iff
  have hsub : ∀ sel : List String,
      subtitleLangMatch sel (convertCinevilleFilmToMovie film S) =
        subtitleLangMatch sel (convertCinevilleFilmToMovie film S') := by
    intro sel
    unfold subtitleLangMatch
    apply any_congr_fun
    intro x _
    exact any_congr_mem _ _ _ hsubsmem
  have hspk : ∀ sel : List String,
      spokenLangMatch sel (convertCinevilleFilmToMovie film S) =
        spokenLangMatch sel (convertCinevilleFilmToMovie film S') := by
    intro sel
    unfold spokenLangMatch
    rw [hspoken]
  unfold moviePass
  cases filters with
  | none => simp only [hposter]
  | some f => simp only [hposter, hsub, hspk]

lemma canon_pass_eq (filters : Option MovieFilters) {l l' : List CinevilleShowtime}
    (hperm : l.Perm l') (hco : FilmCoherent l) (fid : String)
    (hfid : fid ∈ l.map (fun st => st.film.id)) :
    moviePass filters
        (convertCinevilleFilmToMovie (canonGroup l fid).film (canonGroup l fid).showtimes) =
      moviePass filters
        (convertCinevilleFilmToMovie (canonGroup l' fid).film (canonGroup l' fid).showtimes) := by
  obtain ⟨st, hst, hstid⟩ := List.mem_map.mp hfid
  have hfid' : fid ∈ l'.map (fun st => st.film.id) := (hperm.map _).mem_iff.mp hfid
  obtain ⟨st2, hst2, hst2id⟩ := List.mem_map.mp hfid'
  have hsome : (l.find? (fun st => st.film.id = fid)).isSome :=
    List.find?_isSome.mpr ⟨st, hst, by simp [hstid]⟩
  have hsome' : (l'.find? (fun st => st.film.id = fid)).isSome :=
    List.find?_isSome.mpr ⟨st2, hst2, by simp [hst2id]⟩
  obtain ⟨u, hu⟩ := Option.isSome_iff_exists.mp hsome
  obtain ⟨v, hv⟩ := Option.isSome_iff_exists.mp hsome'
  have humem := List.mem_of_find?_eq_some hu
  have hvmem := List.mem_of_find?_eq_some hv
  have huid : u.film.id = fid := by simpa using List.find?_some hu
  have hvid : v.film.id = fid := by simpa using List.find?_some hv
  have hfilm : (canonGroup l fid).film = (canonGroup l' fid).film := by
    have huv : u.film = v.film :=
      hco u humem v (hperm.mem_iff.mpr hvmem) (by rw [huid, hvid])
    simp [canonGroup, hu, hv, huv]
  have hS : ((canonGroup l fid).showtimes).Perm ((canonGroup l' fid).showtimes) := by
    show (l.filter _).Perm (l'.filter _)
    exact hperm.filter _
  calc moviePass filters
        (convertCinevilleFilmToMovie (canonGroup l fid).film (canonGroup l fid).showtimes)
      = moviePass filters
          (convertCinevilleFilmToMovie (canonGroup l fid).film (canonGroup l' fid).showtimes) :=
        conv_pass_eq filters _ hS
    _ = moviePass filters
          (convertCinevilleFilmToMovie (canonGroup l' fid).film (canonGroup l' fid).showtimes) := by
        rw [hfilm]

lemma canon_abs_eq {l l' : List CinevilleShowtime}
    (hperm : l.Perm l') (hco : FilmCoherent l) (fid : String)
    (hfid : fid ∈ l.map (fun st => st.film.id)) :
    movieAbs
        (convertCinevilleFilmToMovie (canonGroup l fid).film (canonGroup l fid).showtimes) =
      movieAbs
        (convertCinevilleFilmToMovie (canonGroup l' fid).film (canonGroup l' fid).showtimes) := by
  obtain ⟨st, hst, hstid⟩ := List.mem_map.mp hfid
  have hfid' : fid ∈ l'.map (fun st => st.film.id) := (hperm.map _).mem_iff.mp hfid
  obtain ⟨st2, hst2, hst2id⟩ := List.mem_map.mp hfid'
  have hsome : (l.find? (fun st => st.film.id = fid)).isSome :=
    List.find?_isSome.mpr ⟨st, hst, by simp [hstid]⟩
  have hsome' : (l'.find? (fun st => st.film.id = fid)).isSome :=
    List.find?_isSome.mpr ⟨st2, hst2, by simp [hst2id]⟩
  obtain ⟨u, hu⟩ := Option.isSome_iff_exists.mp hsome
  obtain ⟨v, hv⟩ := Option.isSome_iff_exists.mp hsome'
  have humem := List.mem_of_find?_eq_some hu
  have hvmem := List.mem_of_find?_eq_some hv
  have huid : u.film.id = fid := by simpa using List.find?_some hu
  have hvid : v.film.id = fid := by simpa using List.find?_some hv
  have hfilm : (canonGroup l fid).film = (canonGroup l' fid).film := by
    have huv : u.film = v.film :=
      hco u humem v (hperm.mem_iff.mpr hvmem) (by rw [huid, hvid])
    simp [canonGroup, hu, hv, huv]
  have hS : ((canonGroup l fid).showtimes).Perm ((canonGroup l' fid).showtimes) := by
    show (l.filter _).Perm (l'.filter _)
    exact hperm.filter _
  calc movieAbs
        (convertCinevilleFilmToMovie (canonGroup l fid).film (canonGroup l fid).showtimes)
      = movieAbs
          (convertCinevilleFilmToMovie (canonGroup l fid).film (canonGroup l' fid).showtimes) :=
        conv_abs_eq _ hS
    _ = movieAbs
          (convertCinevilleFilmToMovie (canonGroup l' fid).film (canonGroup l' fid).showtimes) := by
        rw [hfilm]

lemma filter_map_perm_congr {β δ : Type} (K K' : List β) (f f' : β → Movie)
    (A : Movie → δ) (p : Movie → Bool) (hK : K.Perm K')
    (hpass : ∀ b ∈ K, p (f b) = p (f' b))
    (habs : ∀ b ∈ K, A (f b) = A (f' b)) :
    (((K.map f).filter p).map A).Perm (((K'.map f').filter p).map A) := by
  rw [← map_filter_swap f p K, List.map_map]
  rw [← map_filter_swap f' p K', List.map_map]
  have h1 : K.filter (fun b => p (f b)) = K.filter (fun b => p (f' b)) :=
    List.filter_congr hpass
  rw [h1]
  have h2 : (K.filter (fun b => p (f' b))).map (A ∘ f) =
      (K.filter (fun b => p (f' b))).map (A ∘ f') :=
    List.map_congr_left (fun b hb => by
      have hbK : b ∈ K := List.mem_of_mem_filter hb
      simpa using habs b hbK)
  rw [h2]
  exact (hK.filter _).map _

/-- C8: aggregation is invariant under permutation of its input. For every raw
showtime list in which records sharing a film id carry an identical film
payload, permuting the input yields the same multiset of aggregated movies up
to the order-insensitive abstraction `movieAbs` (film id, showtime-id set, and
the three facet sets). -/
theorem getPopularMovies_perm_invariant :
    ∀ (data data' : List CinevilleShowtime) (filters : Option MovieFilters),
      data.Perm data' → FilmCoherent data →
      ((getPopularMovies data filters).map movieAbs).Perm
        ((getPopularMovies data' filters).map movieAbs) := by
  intro data data' filters hperm hco
  have hco' : FilmCoherent data' := fun st h1 st2 h2 he =>
    hco st (hperm.mem_iff.mpr h1) st2 (hperm.mem_iff.mpr h2) he
  have hkp : (data.filter (keepShowtime filters)).Perm (data'.filter (keepShowtime filters)) :=
    hperm.filter _
  have hcoL : FilmCoherent (data.filter (keepShowtime filters)) := fun st h1 st2 h2 he =>
    hco st (List.mem_of_mem_filter h1) st2 (List.mem_of_mem_filter h2) he
  have hcoL' : FilmCoherent (data'.filter (keepShowtime filters)) := fun st h1 st2 h2 he =>
    hco' st (List.mem_of_mem_filter h1) st2 (List.mem_of_mem_filter h2) he
  rw [getPopularMovies_eq_filter_chain data filters, getPopularMovies_eq_filter_chain data' filters,
    groups_canon_form filters data hcoL, groups_canon_form filters data' hcoL',
    List.map_map, List.map_map]
  have hK : (firstDedup ((data.filter (keepShowtime filters)).map (fun st => st.film.id))).Perm
      (firstDedup ((data'.filter (keepShowtime filters)).map (fun st => st.film.id))) :=
    (List.perm_ext_iff_of_nodup (nodup_firstDedup _) (nodup_firstDedup _)).mpr
      (fun a => by rw [mem_firstDedup, mem_firstDedup]; exact (hkp.map _).mem_iff)
  apply filter_map_perm_congr _ _ _ _ movieAbs (moviePass filters) hK
  · intro fid hfid
    have hfid2 : fid ∈ (data.filter (keepShowtime filters)).map (fun st => st.film.id) :=
      (mem_firstDedup _ _).mp hfid
    simpa using canon_pass_eq filters hkp hcoL fid hfid2
  · intro fid hfid
    have hfid2 : fid ∈ (data.filter (keepShowtime filters)).map (fun st => st.film.id) :=
      (mem_firstDedup _ _).mp hfid
    simpa using canon_abs_eq hkp hcoL fid hfid2

/-- A showtime of the second film with no specials label. -/
def stOther : CinevilleShowtime := mkShowtime "s5" filmSub thAlpha none

/-- C8 witness: swapping two concrete showtimes of distinct films leaves the
abstracted aggregation output a permutation of the original. -/
theorem getPopularMovies_perm_invariant_witness :
    ((getPopularMovies [stPos, stOther] none).map movieAbs).Perm
      ((getPopularMovies [stOther, stPos] none).map movieAbs) :=
  getPopularMovies_perm_invariant [stPos, stOther] [stOther, stPos] none (by decide) (by decide)

end CineCompass
